import Mathlib

/-!
Verification development for the CTA L ridership analytics console
(`main.py`).  The SQL queries and the Python glue of each operation are
shallowly embedded as executable Lean functions over an explicit
relational database value; machine floats are modelled by exact
rationals, and conditions that make the Python process raise an uncaught
exception are modelled by explicit `crash`-style outcomes.
-/

/-! ## Relational data model (tables of `CTA2_L_daily_ridership.db`) -/

/-- A row of the `Stations` table. -/
structure Station where
  station_id : Int
  station_name : String
deriving DecidableEq, Repr

/-- A row of the `Stops` table (geographic position as exact rationals). -/
structure StopRec where
  stop_id : Int
  stop_name : String
  direction : String
  station_id : Int
  ada : Bool
  latitude : ℚ
  longitude : ℚ
deriving DecidableEq, Repr

/-- A row of the `Lines` table. -/
structure LineRec where
  line_id : Int
  color : String
deriving DecidableEq, Repr

/-- A row of the `StopDetails` association table. -/
structure StopDetail where
  stop_id : Int
  line_id : Int
deriving DecidableEq, Repr

/-- A calendar date, as stored in `Ride_Date` (the time part is always
midnight and is dropped by every query of the program). -/
structure SDate where
  y : Nat
  m : Nat
  d : Nat
deriving DecidableEq, Repr

/-- A row of the `Ridership` table; `type_of_day` is `"W"`, `"A"` or `"U"`. -/
structure RidershipRec where
  station_id : Int
  ride_date : SDate
  type_of_day : String
  num_riders : Nat
deriving DecidableEq, Repr

/-- The whole read-only database. -/
structure DB where
  stations : List Station
  stops : List StopRec
  lines : List LineRec
  stopDetails : List StopDetail
  ridership : List RidershipRec
deriving DecidableEq, Repr

/-! ## Generic list machinery: stable sorting, SQL `GROUP BY`, `DISTINCT` -/

/-- Insert `x` in front of the first element `y` with `le x y`. -/
def insertBy {α : Type} (le : α → α → Bool) (x : α) : List α → List α
  | [] => [x]
  | y :: ys => if le x y then x :: y :: ys else y :: insertBy le x ys

/-- Stable insertion sort: models SQL `ORDER BY` (and Python `sorted`).
Elements that compare equal keep their incoming relative order. -/
def sortBy {α : Type} (le : α → α → Bool) (l : List α) : List α :=
  l.foldr (insertBy le) []

/-- SQL `SELECT DISTINCT`, keeping the first occurrence of each value. -/
def dedupFirst {α : Type} [DecidableEq α] : List α → List α
  | [] => []
  | x :: t => x :: (dedupFirst t).filter (fun y => y ≠ x)

/-- Number of occurrences of `x` in `l`. -/
def countOcc {α : Type} [DecidableEq α] (x : α) (l : List α) : Nat :=
  (l.filter (fun y => y = x)).length

/-- SQL `GROUP BY key` together with an aggregate `SUM (val)`: one
output pair per distinct key, keys in first-occurrence order (every
caller re-sorts the result, matching SQLite producing its groups in an
order that the following `ORDER BY` then fixes). -/
def groupSums {α κ : Type} [DecidableEq κ] (key : α → κ) (val : α → Nat)
    (l : List α) : List (κ × Nat) :=
  (dedupFirst (l.map key)).map
    (fun k => (k, ((l.filter (fun y => key y = k)).map val).sum))

/-! ## String, number and date helpers -/

/-- ASCII lower-casing, as both SQLite `LIKE` and Python `.lower()` do
on the ASCII names in this dataset. -/
def strLower (s : String) : String := ⟨s.data.map Char.toLower⟩

/-- ASCII upper-casing, modelling Python `.upper()` on ASCII input. -/
def strUpper (s : String) : String := ⟨s.data.map Char.toUpper⟩

/-- One step of Python `str.title()`: a letter is upper-cased when the
previous character was not a letter, lower-cased otherwise. -/
def titleAux : Bool → List Char → List Char
  | _, [] => []
  | prevAlpha, ch :: t =>
    (if ch.isAlpha then (if prevAlpha then ch.toLower else ch.toUpper) else ch)
      :: titleAux ch.isAlpha t

/-- Python `str.title()` on ASCII strings. -/
def pyTitle (s : String) : String := ⟨titleAux false s.data⟩

/-- Lexicographic (byte-order) strict comparison of character lists:
this is SQLite BINARY collation and Python string order on the ASCII
names of this dataset. -/
def charListLt : List Char → List Char → Bool
  | [], [] => false
  | [], _ :: _ => true
  | _ :: _, [] => false
  | c :: cs, d :: ds =>
    if c.toNat < d.toNat then true
    else if d.toNat < c.toNat then false
    else charListLt cs ds

/-- Lexicographic (byte-order) comparison of character lists. -/
def charListLe : List Char → List Char → Bool
  | [], _ => true
  | _ :: _, [] => false
  | c :: cs, d :: ds =>
    if c.toNat < d.toNat then true
    else if d.toNat < c.toNat then false
    else charListLe cs ds

/-- String order used by `ORDER BY` and Python `sorted`. -/
def strLtB (a b : String) : Bool := charListLt a.data b.data

/-- String order used by `ORDER BY` and Python `sorted`. -/
def strLeB (a b : String) : Bool := charListLe a.data b.data

/-- Bounded-depth core of the `LIKE` matcher.  Every recursive call
strictly decreases `pattern.length + s.length`, so a budget of
`pattern.length + s.length + 1` (as supplied by `likeMatch`) can never
reach the `0` case; the explicit budget only keeps the recursion
structural. -/
def likeMatchF : Nat → List Char → List Char → Bool
  | 0, _, _ => false
  | _ + 1, [], [] => true
  | _ + 1, [], _ :: _ => false
  | fuel + 1, '%' :: ps, [] => likeMatchF fuel ps []
  | fuel + 1, '%' :: ps, c :: t =>
    likeMatchF fuel ps (c :: t) || likeMatchF fuel ('%' :: ps) t
  | _ + 1, '_' :: _, [] => false
  | fuel + 1, '_' :: ps, _ :: t => likeMatchF fuel ps t
  | _ + 1, _ :: _, [] => false
  | fuel + 1, p :: ps, c :: t => (p == c) && likeMatchF fuel ps t

/-- SQL `LIKE` on character lists: `%` matches any run, `_` any single
character; other characters match themselves. -/
def likeMatch (p s : List Char) : Bool :=
  likeMatchF (p.length + s.length + 1) p s

/-- SQLite `LIKE`, which is case-insensitive on ASCII letters. -/
def sqlLike (pattern s : String) : Bool :=
  likeMatch (strLower pattern).data (strLower s).data

/-- Digit run to number, most significant first. -/
def natOfDigits (l : List Char) : Nat :=
  l.foldl (fun acc ch => acc * 10 + (ch.toNat - 48)) 0

/-- Python `float(...)` on the decimal literals this console receives:
optional sign, integer digits, optional `.` and fraction digits, nothing
else.  `Option.none` models the `ValueError` that `float` raises on a
string that is not a numeric literal (exponent and `inf`/`nan` forms are
outside this model).  The value is kept as an exact rational. -/
def parseFloatQ (s : String) : Option ℚ :=
  let signRest : ℚ × List Char :=
    match s.data with
    | '-' :: t => (-1, t)
    | '+' :: t => (1, t)
    | t => (1, t)
  let ipair := signRest.2.span Char.isDigit
  match ipair.2 with
  | [] =>
    if ipair.1 = [] then Option.none
    else some (signRest.1 * (natOfDigits ipair.1 : ℚ))
  | '.' :: fracRest =>
    let fpair := fracRest.span Char.isDigit
    if fpair.2 = [] ∧ (ipair.1 ≠ [] ∨ fpair.1 ≠ []) then
      some (signRest.1 * ((natOfDigits ipair.1 : ℚ)
        + (natOfDigits fpair.1 : ℚ) / (10 : ℚ) ^ fpair.1.length))
    else Option.none
  | _ => Option.none

/-- Gregorian leap-year rule, as in Python `datetime`. -/
def isLeap (y : Nat) : Bool := (y % 4 == 0 && y % 100 != 0) || y % 400 == 0

/-- Length of a month. -/
def monthLength (y m : Nat) : Nat :=
  if m = 2 then (if isLeap y then 29 else 28)
  else if m = 4 ∨ m = 6 ∨ m = 9 ∨ m = 11 then 30
  else 31

/-- 1-indexed day of year: the plot code computes
`(date - datetime(date.year, 1, 1)).days + 1`, so January 1 maps to 1. -/
def dayOfYear (d : SDate) : Nat :=
  ((List.range (d.m - 1)).map (fun i => monthLength d.y (i + 1))).sum + d.d

/-- Date comparison; `ORDER BY` on the zero-padded `YYYY-MM-DD` strings
used by the queries coincides with this lexicographic numeric order. -/
def dateLe (a b : SDate) : Bool :=
  decide (a.y < b.y ∨ (a.y = b.y ∧ (a.m < b.m ∨ (a.m = b.m ∧ a.d ≤ b.d))))

/-! ## The three-way join Stops ⋈ StopDetails ⋈ Lines -/

/-- Row multiset of `Stops JOIN StopDetails ON Stops.Stop_ID =
StopDetails.Stop_ID JOIN Lines ON StopDetails.Line_ID = Lines.Line_ID`,
enumerated from the association table; every consumer groups or sorts
these rows, so the enumeration order is irrelevant. -/
def stopJoinRows (db : DB) : List (StopRec × LineRec) :=
  db.stopDetails.flatMap (fun sd =>
    (db.stops.filter (fun st => st.stop_id = sd.stop_id)).flatMap (fun st =>
      (db.lines.filter (fun ln => ln.line_id = sd.line_id)).map (fun ln => (st, ln))))

/-! ## Command 5: stop-count distribution by color and direction -/

/-- One printed row of command 5. -/
structure DistRow where
  color : String
  direction : String
  num_stops : Nat
  pct : ℚ
deriving DecidableEq, Repr

/-- Lexicographic comparison for `ORDER BY Lines.Color ASC,
Stops.Direction ASC`. -/
def pairLe (a b : String × String) : Bool :=
  strLtB a.1 b.1 || (decide (a.1 = b.1) && strLeB a.2 b.2)

/-- `stops_for_each_color_by_direction` (command 5): total stop count
from `SELECT COUNT(*) FROM Stops`, per-(color,direction) counts from the
three-way join, percentage of each group against the total stop count. -/
def stops_for_each_color_by_direction (db : DB) : List DistRow :=
  let total_stops := db.stops.length
  let groups := groupSums (fun r => (r.2.color, r.1.direction)) (fun _ => 1)
    (stopJoinRows db)
  let ordered := sortBy (fun a b => pairLe a.1 b.1) groups
  ordered.map (fun g => ⟨g.1.1, g.1.2, g.2, (g.2 : ℚ) / (total_stops : ℚ) * 100⟩)

/-! ## Command 2: per-station day-type percentages -/

/-- The `CASE WHEN` priority: `W` then `A` then everything else. -/
def dayPriority (t : String) : Nat :=
  if t = "W" then 1 else if t = "A" then 2 else 3

/-- Day-type label used when printing. -/
def dayString (t : String) : String :=
  if t = "W" then "Weekday" else if t = "A" then "Saturday"
  else "Sunday/holiday"

inductive RPResult
  | noData
  | crash
  | report (rows : List (String × Nat × ℚ)) (total : Nat)
deriving DecidableEq, Repr

/-- `ridership_percentages` (command 2).  With a nonempty result whose
rider sums add up to zero the Python loop evaluates
`count / total_ridership` with `total_ridership = 0`, raising an
uncaught `ZeroDivisionError`: that is the `crash` outcome. -/
def ridership_percentages (db : DB) (station_name : String) : RPResult :=
  let rows := db.ridership.flatMap (fun r =>
    (db.stations.filter (fun st =>
      st.station_id = r.station_id ∧ st.station_name = station_name)).map
      (fun _ => (r.type_of_day, r.num_riders)))
  let groups := sortBy (fun a b => decide (dayPriority a.1 ≤ dayPriority b.1))
    (sortBy (fun a b => strLeB a.1 b.1) (groupSums Prod.fst Prod.snd rows))
  if groups.isEmpty then .noData
  else
    let total := (groups.map Prod.snd).sum
    if total = 0 then .crash
    else .report
      (groups.map (fun g => (dayString g.1, g.2, (g.2 : ℚ) / (total : ℚ) * 100)))
      total

/-! ## Command 3: system-wide weekday ranking -/

/-- One printed row of command 3. -/
structure WeekdayRow where
  station_name : String
  total : Nat
  pct : ℚ
deriving DecidableEq, Repr

/-- `total_weekday_ridership` (command 3).  `GROUP BY
Stations.Station_ID` presents its groups in station-id order; `ORDER BY
Total_Riders DESC` is modelled as a stable descending sort, which keeps
equal totals in that station-id order (the query has no tie-break
clause, and in particular no alphabetical one).  `Option.none` is the
`ZeroDivisionError` raised when the grand total is zero while the
result set is not empty. -/
def total_weekday_ridership (db : DB) : Option (List WeekdayRow) :=
  let rows := db.ridership.flatMap (fun r =>
    if r.type_of_day = "W" then
      (db.stations.filter (fun st => st.station_id = r.station_id)).map
        (fun st => ((st.station_id, st.station_name), r.num_riders))
    else [])
  let grouped := sortBy (fun a b => decide (a.1.1 ≤ b.1.1))
    (groupSums Prod.fst Prod.snd rows)
  let ordered := sortBy (fun a b => decide (b.2 ≤ a.2)) grouped
  let grand := (ordered.map Prod.snd).sum
  if ordered.isEmpty then some []
  else if grand = 0 then Option.none
  else some (ordered.map (fun g => ⟨g.1.2, g.2, (g.2 : ℚ) / (grand : ℚ) * 100⟩))

/-! ## Station-pattern resolution and the three series commands -/

/-- Tagged outcome of resolving a pattern against a match list. -/
inductive Resolution (α : Type)
  | zero
  | one (a : α)
  | many
deriving DecidableEq, Repr

/-- The two-branch check `len == 0` / `len > 1` shared by commands
6, 7 and 8. -/
def resolveOne {α : Type} : List α → Resolution α
  | [] => .zero
  | [a] => .one a
  | _ :: _ :: _ => .many

def msgNoStation : String := "**No station found..."

def msgMultiple : String := "**Multiple stations found..."

/-- `SELECT DISTINCT Station_Name FROM Stations WHERE Station_Name LIKE
?` as used by commands 6 and 7: the pattern is used exactly as typed. -/
def distinctNameMatches (db : DB) (pat : String) : List String :=
  dedupFirst ((db.stations.filter (fun st => sqlLike pat st.station_name)).map
    (fun st => st.station_name))

/-- `SELECT Station_ID, Station_Name FROM Stations WHERE Station_Name
LIKE ?` with the pattern widened to `%pat%`, as used by command 8
(no `DISTINCT`). -/
def comparisonMatches (db : DB) (pat : String) : List (Int × String) :=
  (db.stations.filter (fun st =>
    sqlLike ("%" ++ pat ++ "%") st.station_name)).map
    (fun st => (st.station_id, st.station_name))

inductive SeriesResult
  | noStation
  | multiple
  | report (station : String) (series : List (Nat × Nat))
deriving DecidableEq, Repr

/-- `yearly_ridership` (command 6) up to its textual report: resolve the
pattern, then sum riders per year, ordered by year ascending. -/
def yearly_ridership (db : DB) (pat : String) : SeriesResult :=
  match resolveOne (distinctNameMatches db pat) with
  | .zero => .noStation
  | .many => .multiple
  | .one name =>
    let rows := db.ridership.flatMap (fun r =>
      (db.stations.filter (fun st =>
        st.station_id = r.station_id ∧ st.station_name = name)).map
        (fun _ => (r.ride_date.y, r.num_riders)))
    .report name
      (sortBy (fun a b => decide (a.1 ≤ b.1)) (groupSums Prod.fst Prod.snd rows))

/-- `monthly_ridership` (command 7): same resolution rule, then a month
series restricted to the typed year (the year is only consulted after
resolution succeeded). -/
def monthly_ridership (db : DB) (pat : String) (year : String) : SeriesResult :=
  match resolveOne (distinctNameMatches db pat) with
  | .zero => .noStation
  | .many => .multiple
  | .one name =>
    let rows := db.ridership.flatMap (fun r =>
      if toString r.ride_date.y = year then
        (db.stations.filter (fun st =>
          st.station_id = r.station_id ∧ st.station_name = name)).map
          (fun _ => (r.ride_date.m, r.num_riders))
      else [])
    .report name
      (sortBy (fun a b => decide (a.1 ≤ b.1)) (groupSums Prod.fst Prod.snd rows))

/-! ## Command 8: daily comparison of two stations -/

/-- Per-day ridership of one station in one year (the inner query of
command 8): group by date, sum riders, order by date ascending. -/
def dailySeries (db : DB) (sid : Int) (year : String) : List (SDate × Nat) :=
  let rows := db.ridership.filter
    (fun r => r.station_id = sid ∧ toString r.ride_date.y = year)
  sortBy (fun a b => dateLe a.1 b.1)
    (groupSums (fun r => r.ride_date) (fun r => r.num_riders) rows)

/-- The textual report of command 8 prints `data[0:5] + data[-5:]`. -/
def shownDays {α : Type} (l : List α) : List α :=
  l.take 5 ++ l.drop (l.length - 5)

/-- The plot branch of command 8.  The x-values `days` are computed
from the dates of station 1 only and are then zipped against the
rider counts of BOTH stations; when the two series have different lengths,
`plt.plot(days, ridership2)` raises, which `Option.none` models. -/
def plotSeries (d1 d2 : List (SDate × Nat)) :
    Option (List (Nat × Nat) × List (Nat × Nat)) :=
  if d1.length = d2.length then
    let days := d1.map (fun r => dayOfYear r.1)
    some (days.zip (d1.map Prod.snd), days.zip (d2.map Prod.snd))
  else Option.none

inductive CompResult
  | failure1 (msg : String)
  | failure2 (msg : String)
  | crashed
  | report (id1 : Int) (name1 : String) (shown1 : List (SDate × Nat))
      (id2 : Int) (name2 : String) (shown2 : List (SDate × Nat))
      (plot : Option (List (Nat × Nat) × List (Nat × Nat)))
deriving DecidableEq, Repr

/-- `daily_ridership_comparison` (command 8).  Station 2 is consulted
only after station 1 resolved; `crashed` marks the matplotlib
length-mismatch error in the plot branch (raised after the textual
report was printed). -/
def daily_ridership_comparison (db : DB) (year p1 p2 : String)
    (plotRequested : Bool) : CompResult :=
  match resolveOne (comparisonMatches db p1) with
  | .zero => .failure1 msgNoStation
  | .many => .failure1 msgMultiple
  | .one s1 =>
    match resolveOne (comparisonMatches db p2) with
    | .zero => .failure2 msgNoStation
    | .many => .failure2 msgMultiple
    | .one s2 =>
      let d1 := dailySeries db s1.1 year
      let d2 := dailySeries db s2.1 year
      if plotRequested then
        match plotSeries d1 d2 with
        | Option.none => .crashed
        | some pd =>
          .report s1.1 s1.2 (shownDays d1) s2.1 s2.2 (shownDays d2) (some pd)
      else .report s1.1 s1.2 (shownDays d1) s2.1 s2.2 (shownDays d2) Option.none

/-! ## Command 4: stop listing by line and direction -/

/-- The two-state accessibility label. -/
def adaLabel (b : Bool) : String :=
  if b then "(handicap accessible)" else "(not handicap accessible)"

/-- `SELECT DISTINCT Direction` for the stops on the line of this
color. -/
def lineDirections (db : DB) (color : String) : List String :=
  dedupFirst (((stopJoinRows db).filter (fun r => r.2.color = color)).map
    (fun r => r.1.direction))

inductive StopsResult
  | noSuchLine
  | wrongDirection
  | emptyStops
  | stops (rows : List (String × String))
deriving DecidableEq, Repr

/-- `list_stops_by_line_and_direction` (command 4): title-case the
color and check it names a line (the direction prompt is only issued
after this passes); then upper-case the direction and check the line
serves it; only then list (stop name, ADA label) ordered by stop name
ascending. -/
def list_stops_by_line_and_direction (db : DB) (colorInput direction : String) :
    StopsResult :=
  let color := pyTitle colorInput
  if (db.lines.filter (fun ln => ln.color = color)).isEmpty then .noSuchLine
  else
    let dirU := strUpper direction
    if ¬ (dirU ∈ lineDirections db color) then .wrongDirection
    else
      let rows := sortBy (fun a b => strLeB a.1.stop_name b.1.stop_name)
        ((stopJoinRows db).filter
          (fun r => r.2.color = color ∧ r.1.direction = dirU))
      if rows.isEmpty then .emptyStops
      else .stops (rows.map (fun r => (r.1.stop_name, adaLabel r.1.ada)))

/-! ## Command 9: stations within a mile -/

/-- Python `round(x, 3)`.  Mathlib `round` sends ties upward while
Python sends them to the even neighbour; no statement below depends on
the tie behaviour, and both sides of the refinement theorem use this
single function. -/
def round3 (q : ℚ) : ℚ := ((round (q * 1000) : ℤ) : ℚ) / 1000

/-- The four range-filter bounds. -/
structure MileBox where
  lat_lower : ℚ
  lat_upper : ℚ
  lon_left : ℚ
  lon_right : ℚ
deriving DecidableEq, Repr

/-- The bounding box computed at lines 329-341 of `main.py`.  `c`
stands for the value of `math.cos(math.radians(latitude))`, the one
transcendental quantity, passed in as an exact rational; all other
arithmetic is exact. -/
def mileBox (c lat lon : ℚ) : MileBox :=
  let mile_in_degrees_lat : ℚ := 1 / 69
  let mile_in_degrees_lon : ℚ := 1 / (c * 69.17)
  let lat_upper := lat + mile_in_degrees_lat
  let lat_lower := lat - mile_in_degrees_lat
  let lon_left := lon - mile_in_degrees_lon
  let lon_right := lon + mile_in_degrees_lon
  ⟨round3 (lat_lower - 0.000), round3 (lat_upper + 0.000),
   round3 (lon_left - 0.0001), round3 (lon_right + 0.0001)⟩

/-- The §4.10 bounding box, written from the spec text: latitude
half-width exactly 1/69 degree with no extra padding; longitude
half-width 1/(cos(latitude in radians) × 69.17) degrees; longitude
bounds widened by ±0.0001; all four bounds rounded to 3 decimal places
for the filter comparison. -/
def specMileBox (c lat lon : ℚ) : MileBox :=
  let halfLat : ℚ := 1 / 69
  let halfLon : ℚ := 1 / (c * 69.17)
  ⟨round3 (lat - halfLat), round3 (lat + halfLat),
   round3 (lon - halfLon - 0.0001), round3 (lon + halfLon + 0.0001)⟩

/-- `SELECT DISTINCT Stations.Station_Name, Stops.Latitude,
Stops.Longitude ... WHERE ... BETWEEN ...`: the reported coordinates
are the stored ones, only the bounds were rounded. -/
def mileQueryRows (db : DB) (b : MileBox) : List (String × ℚ × ℚ) :=
  dedupFirst (db.stops.flatMap (fun st =>
    if b.lat_lower ≤ st.latitude ∧ st.latitude ≤ b.lat_upper
        ∧ b.lon_left ≤ st.longitude ∧ st.longitude ≤ b.lon_right then
      (db.stations.filter (fun s => s.station_id = st.station_id)).map
        (fun s => (s.station_name, st.latitude, st.longitude))
    else []))

inductive MileResult
  | latOutOfRange
  | lonParseCrash
  | lonOutOfRange
  | noStations
  | results (rows : List (String × ℚ × ℚ))
deriving DecidableEq, Repr

/-- `stations_within_mile` (command 9) after the latitude has been
parsed: validate the latitude range; only then ask for, parse
(`lonParseCrash` = uncaught `ValueError`) and validate the longitude;
then run the box filter and sort rows by station name (Python `sorted`,
stable). -/
def stations_within_mile (db : DB) (c lat : ℚ) (lonInput : String) : MileResult :=
  if ¬ (40 ≤ lat ∧ lat ≤ 43) then .latOutOfRange
  else
    match parseFloatQ lonInput with
    | Option.none => .lonParseCrash
    | some lon =>
      if ¬ (-88 ≤ lon ∧ lon ≤ -87) then .lonOutOfRange
      else
        let rows := sortBy (fun a b => strLeB a.1 b.1)
          (mileQueryRows db (mileBox c lat lon))
        if rows.isEmpty then .noStations else .results rows

/-! ## The top-level command loop -/

inductive StepResult
  | cont
  | exit
  | crash
deriving DecidableEq, Repr

/-- One iteration of the `while True` loop of `main`.  `inp n` is the
n-th further `input()` answer typed for this command (the user is
assumed to keep answering, so end-of-input is not modelled).  `cont`
means control returns to the top of the loop; `crash` an uncaught
exception that terminates the whole process.  `c` is the cosine value
for command 9, as in `mileBox`.  Commands 1, 4, 5, 6 and 7 cannot raise:
their queries and plots never divide and never mismatch lengths. -/
def runCommand (db : DB) (c : ℚ) (cmd : String) (inp : Nat → String) :
    StepResult :=
  if strLower cmd = "x" then .exit
  else if cmd = "1" then .cont
  else if cmd = "2" then
    match ridership_percentages db (inp 0) with
    | .crash => .crash
    | _ => .cont
  else if cmd = "3" then
    match total_weekday_ridership db with
    | Option.none => .crash
    | some _ => .cont
  else if cmd = "4" then .cont
  else if cmd = "5" then .cont
  else if cmd = "6" then .cont
  else if cmd = "7" then .cont
  else if cmd = "8" then
    match daily_ridership_comparison db (inp 0) (inp 1) (inp 2)
        (strLower (inp 3) = "y") with
    | .crashed => .crash
    | _ => .cont
  else if cmd = "9" then
    match parseFloatQ (inp 0) with
    | Option.none => .crash
    | some lat =>
      match stations_within_mile db c lat (inp 1) with
      | .lonParseCrash => .crash
      | _ => .cont
  else .cont

/-! ## Concrete datasets used in the claim analyses -/

/-- A dataset satisfying the data-model invariants in which one stop is
served by two lines: the stop-count distribution then counts it once
per line. -/
def exInvDB : DB :=
  ⟨[⟨1, "S"⟩],
   [⟨10, "StopA", "N", 1, true, 0, 0⟩],
   [⟨100, "Blue"⟩, ⟨200, "Red"⟩],
   [⟨10, 100⟩, ⟨10, 200⟩],
   []⟩

/-- A dataset with one station whose only ridership record has zero
riders: the day-type percentage query then divides by zero. -/
def exZeroDB : DB :=
  ⟨[⟨1, "Foster"⟩], [], [], [], [⟨1, ⟨2021, 5, 5⟩, "W", 0⟩]⟩

/-- Two stations with equal weekday totals whose id order is the
reverse of their alphabetical order. -/
def exTieDB : DB :=
  ⟨[⟨1, "Zeta"⟩, ⟨2, "Alpha"⟩], [], [], [],
   [⟨1, ⟨2021, 1, 1⟩, "W", 10⟩, ⟨2, ⟨2021, 1, 2⟩, "W", 10⟩]⟩

/-- Two stations, one of whose names is a strict substring of the
other, plus one weekday ridership record for the first. -/
def exNamesDB : DB :=
  ⟨[⟨1, "Austin"⟩, ⟨2, "Austin-Forest Park"⟩], [], [], [],
   [⟨1, ⟨2021, 5, 5⟩, "W", 7⟩]⟩

/-- One line with two stops, both northbound, with opposite ADA flags
and names out of order. -/
def exStopsDB : DB :=
  ⟨[⟨1, "S"⟩],
   [⟨10, "Bstop", "N", 1, true, 0, 0⟩, ⟨11, "Astop", "N", 1, false, 0, 0⟩],
   [⟨100, "Red"⟩],
   [⟨10, 100⟩, ⟨11, 100⟩],
   []⟩

/-- One station with exactly 7 days of ridership in 2021 (rider count
equal to the day of month). -/
def exDays7DB : DB :=
  ⟨[⟨1, "A"⟩], [], [], [],
   (List.range 7).map (fun i => ⟨1, ⟨2021, 1, i + 1⟩, "W", i + 1⟩)⟩

/-- One station with exactly 12 days of ridership in 2021. -/
def exDays12DB : DB :=
  ⟨[⟨1, "A"⟩], [], [], [],
   (List.range 12).map (fun i => ⟨1, ⟨2021, 1, i + 1⟩, "W", i + 1⟩)⟩

/-! ## General lemmas about the embedded machinery -/

theorem mem_insertBy {α : Type} (le : α → α → Bool) (x a : α) (l : List α) :
    a ∈ insertBy le x l ↔ a = x ∨ a ∈ l := by
  induction l with
  | nil => simp [insertBy]
  | cons y ys ih =>
    by_cases h : le x y = true
    · simp [insertBy, h]
    · simp only [insertBy, h, Bool.false_eq_true, if_false, List.mem_cons, ih]
      tauto

theorem mem_sortBy {α : Type} (le : α → α → Bool) (a : α) (l : List α) :
    a ∈ sortBy le l ↔ a ∈ l := by
  induction l with
  | nil => simp [sortBy]
  | cons y ys ih =>
    simp only [sortBy, List.foldr_cons, List.mem_cons]
    rw [show List.foldr (insertBy le) [] ys = sortBy le ys from rfl] at *
    rw [mem_insertBy, ih]

theorem sum_map_insertBy {α : Type} (le : α → α → Bool) (f : α → Nat)
    (x : α) (l : List α) :
    ((insertBy le x l).map f).sum = f x + (l.map f).sum := by
  induction l with
  | nil => simp [insertBy]
  | cons y ys ih =>
    by_cases h : le x y = true
    · simp [insertBy, h]
    · simp only [insertBy, h, Bool.false_eq_true, if_false, List.map_cons,
        List.sum_cons, ih]
      omega

theorem sum_map_sortBy {α : Type} (le : α → α → Bool) (f : α → Nat)
    (l : List α) : ((sortBy le l).map f).sum = (l.map f).sum := by
  induction l with
  | nil => rfl
  | cons y ys ih =>
    simp only [sortBy, List.foldr_cons] at *
    rw [sum_map_insertBy, ih, List.map_cons, List.sum_cons]

theorem count_insertBy {α : Type} [DecidableEq α] (le : α → α → Bool)
    (x a : α) (l : List α) :
    (insertBy le x l).count a = (x :: l).count a := by
  induction l with
  | nil => simp [insertBy]
  | cons y ys ih =>
    by_cases h : le x y = true
    · simp [insertBy, h]
    · simp only [insertBy, h, Bool.false_eq_true, if_false]
      rw [List.count_cons, ih]
      rw [List.count_cons, List.count_cons, List.count_cons]
      omega

theorem count_sortBy {α : Type} [DecidableEq α] (le : α → α → Bool)
    (a : α) (l : List α) : (sortBy le l).count a = l.count a := by
  induction l with
  | nil => rfl
  | cons y ys ih =>
    simp only [sortBy, List.foldr_cons] at *
    rw [count_insertBy, List.count_cons, List.count_cons, ih]

theorem nodup_sortBy {α : Type} [DecidableEq α] (le : α → α → Bool)
    (l : List α) (h : l.Nodup) : (sortBy le l).Nodup := by
  rw [List.nodup_iff_count_le_one] at h ⊢
  intro a
  rw [count_sortBy]
  exact h a

theorem pairwise_insertBy {α : Type} (le : α → α → Bool)
    (htot : ∀ a b, le a b = true ∨ le b a = true)
    (htrans : ∀ a b c, le a b = true → le b c = true → le a c = true)
    (x : α) (l : List α)
    (hl : l.Pairwise (fun a b => le a b = true)) :
    (insertBy le x l).Pairwise (fun a b => le a b = true) := by
  induction l with
  | nil => simp [insertBy]
  | cons y ys ih =>
    rcases List.pairwise_cons.mp hl with ⟨hy, hys⟩
    by_cases h : le x y = true
    · simp only [insertBy, h, if_true]
      refine List.pairwise_cons.mpr ⟨?_, hl⟩
      intro b hb
      rcases List.mem_cons.mp hb with hb | hb
      · exact hb ▸ h
      · exact htrans x y b h (hy b hb)
    · simp only [insertBy, h, Bool.false_eq_true, if_false]
      refine List.pairwise_cons.mpr ⟨?_, ih hys⟩
      intro b hb
      rcases (mem_insertBy le x b ys).mp hb with hb | hb
      · rcases htot x y with h1 | h1
        · exact absurd h1 h
        · exact hb ▸ h1
      · exact hy b hb

theorem pairwise_sortBy {α : Type} (le : α → α → Bool)
    (htot : ∀ a b, le a b = true ∨ le b a = true)
    (htrans : ∀ a b c, le a b = true → le b c = true → le a c = true)
    (l : List α) :
    (sortBy le l).Pairwise (fun a b => le a b = true) := by
  induction l with
  | nil => exact List.Pairwise.nil
  | cons y ys ih =>
    simp only [sortBy, List.foldr_cons] at *
    exact pairwise_insertBy le htot htrans y _ ih

theorem mem_dedupFirst {α : Type} [DecidableEq α] (a : α) (l : List α) :
    a ∈ dedupFirst l ↔ a ∈ l := by
  induction l with
  | nil => simp [dedupFirst]
  | cons x t ih =>
    simp only [dedupFirst, List.mem_cons, List.mem_filter, ih]
    by_cases hax : a = x
    · simp [hax]
    · simp [hax]

theorem nodup_dedupFirst {α : Type} [DecidableEq α] (l : List α) :
    (dedupFirst l).Nodup := by
  induction l with
  | nil => exact List.Pairwise.nil
  | cons x t ih =>
    refine List.nodup_cons.mpr ⟨?_, List.Nodup.filter _ ih⟩
    intro hmem
    have hne : x ≠ x := by simpa using (List.mem_filter.mp hmem).2
    exact hne rfl

/-- Partitioning a sum over a list by a boolean predicate. -/
theorem sum_map_filter_add {α : Type} (p : α → Bool)
    (val : α → Nat) (l : List α) :
    ((l.filter p).map val).sum + ((l.filter (fun y => !(p y))).map val).sum
      = (l.map val).sum := by
  induction l with
  | nil => rfl
  | cons x t ih =>
    cases h : p x <;> simp [List.filter_cons, h] <;> omega

/-- Summing per-key partial sums over a duplicate-free list of keys
that covers every row gives back the total sum. -/
theorem sum_over_keys {α κ : Type} [DecidableEq κ] (key : α → κ)
    (val : α → Nat) (ks : List κ) (l : List α) (hnd : ks.Nodup)
    (hcov : ∀ y ∈ l, key y ∈ ks) :
    (ks.map (fun k => ((l.filter (fun y => key y = k)).map val).sum)).sum
      = (l.map val).sum := by
  induction ks generalizing l with
  | nil =>
    cases l with
    | nil => rfl
    | cons y t =>
      exact absurd (hcov y (List.mem_cons_self y t)) (List.not_mem_nil _)
  | cons k rest ih =>
    rcases List.nodup_cons.mp hnd with ⟨hk, hrest⟩
    simp only [List.map_cons, List.sum_cons]
    have hsplit := sum_map_filter_add (fun y => decide (key y = k)) val l
    have hfilters : ∀ k2 ∈ rest,
        (l.filter (fun y => !(decide (key y = k)))).filter
            (fun y => decide (key y = k2))
          = l.filter (fun y => decide (key y = k2)) := by
      intro k2 hk2
      have hne : k2 ≠ k := fun h => hk (h ▸ hk2)
      rw [List.filter_filter]
      apply List.filter_congr
      intro y hy
      by_cases h : key y = k2
      · have hyk : key y ≠ k := fun hh => hne (h ▸ hh ▸ rfl)
        simp [h, hyk, hne]
      · simp [h]
    have hcov2 : ∀ y ∈ l.filter (fun y => !(decide (key y = k))), key y ∈ rest := by
      intro y hy
      rcases List.mem_filter.mp hy with ⟨hyl, hyk⟩
      have hne : key y ≠ k := by simpa using hyk
      rcases List.mem_cons.mp (hcov y hyl) with h | h
      · exact absurd h hne
      · exact h
    have hmapeq : rest.map (fun k2 =>
          ((l.filter (fun y => key y = k2)).map val).sum)
        = rest.map (fun k2 =>
          (((l.filter (fun y => !(decide (key y = k)))).filter
            (fun y => key y = k2)).map val).sum) := by
      apply List.map_congr_left
      intro k2 hk2
      rw [hfilters k2 hk2]
    rw [hmapeq, ih _ hrest hcov2]
    omega

/-- The grouped sums add up to the sum over the whole list: SQL
`GROUP BY` loses no rows. -/
theorem groupSums_total {α κ : Type} [DecidableEq κ] (key : α → κ)
    (val : α → Nat) (l : List α) :
    ((groupSums key val l).map Prod.snd).sum = (l.map val).sum := by
  unfold groupSums
  rw [List.map_map]
  refine sum_over_keys key val _ l (nodup_dedupFirst _) ?_
  intro y hy
  exact (mem_dedupFirst _ _).mpr (List.mem_map_of_mem key hy)

/-- The keys of the grouped output are exactly the keys of the rows. -/
theorem groupSums_mem_keys {α κ : Type} [DecidableEq κ] (key : α → κ)
    (val : α → Nat) (l : List α) (a : α) (ha : a ∈ l) :
    key a ∈ (groupSums key val l).map Prod.fst := by
  unfold groupSums
  rw [List.map_map]
  have : (Prod.fst ∘ fun k => (k,
      ((l.filter (fun y => key y = k)).map val).sum)) = id := rfl
  rw [this, List.map_id]
  exact (mem_dedupFirst _ _).mpr (List.mem_map_of_mem key ha)

/-- The keys produced by `groupSums` are pairwise distinct. -/
theorem groupSums_keys_nodup {α κ : Type} [DecidableEq κ] (key : α → κ)
    (val : α → Nat) (l : List α) :
    ((groupSums key val l).map Prod.fst).Nodup := by
  unfold groupSums
  rw [List.map_map]
  have : (Prod.fst ∘ fun k => (k,
      ((l.filter (fun y => key y = k)).map val).sum)) = id := rfl
  rw [this, List.map_id]
  exact nodup_dedupFirst _

/-- The grouped output itself is duplicate-free. -/
theorem groupSums_nodup {α κ : Type} [DecidableEq κ] (key : α → κ)
    (val : α → Nat) (l : List α) : (groupSums key val l).Nodup := by
  have h := groupSums_keys_nodup key val l
  exact List.Nodup.of_map _ h

theorem charListLe_total (p : List Char) :
    ∀ q, charListLe p q = true ∨ charListLe q p = true := by
  induction p with
  | nil => intro q; exact Or.inl rfl
  | cons c cs ih =>
    intro q
    cases q with
    | nil => exact Or.inr rfl
    | cons d ds =>
      simp only [charListLe]
      rcases Nat.lt_trichotomy c.toNat d.toNat with h | h | h
      · left
        rw [if_pos h]
      · have h1 : ¬ c.toNat < d.toNat := by omega
        have h2 : ¬ d.toNat < c.toNat := by omega
        rw [if_neg h1, if_neg h2, if_neg h2, if_neg h1]
        exact ih ds
      · right
        rw [if_pos h]

theorem charListLe_trans (p : List Char) :
    ∀ q r, charListLe p q = true → charListLe q r = true →
      charListLe p r = true := by
  induction p with
  | nil => intro q r h1 h2; rfl
  | cons c cs ih =>
    intro q r h1 h2
    cases q with
    | nil => simp [charListLe] at h1
    | cons d ds =>
      cases r with
      | nil => simp [charListLe] at h2
      | cons e es =>
        simp only [charListLe] at h1 h2 ⊢
        rcases Nat.lt_trichotomy c.toNat d.toNat with hcd | hcd | hcd <;>
          rcases Nat.lt_trichotomy d.toNat e.toNat with hde | hde | hde
        · rw [if_pos (by omega : c.toNat < e.toNat)]
        · rw [if_pos (by omega : c.toNat < e.toNat)]
        · rw [if_neg (by omega : ¬ d.toNat < e.toNat),
            if_pos (by omega : e.toNat < d.toNat)] at h2
          exact absurd h2 (by simp)
        · rw [if_pos (by omega : c.toNat < e.toNat)]
        · rw [if_neg (by omega : ¬ c.toNat < e.toNat),
            if_neg (by omega : ¬ e.toNat < c.toNat)]
          rw [if_neg (by omega : ¬ c.toNat < d.toNat),
            if_neg (by omega : ¬ d.toNat < c.toNat)] at h1
          rw [if_neg (by omega : ¬ d.toNat < e.toNat),
            if_neg (by omega : ¬ e.toNat < d.toNat)] at h2
          exact ih ds es h1 h2
        · rw [if_neg (by omega : ¬ d.toNat < e.toNat),
            if_pos (by omega : e.toNat < d.toNat)] at h2
          exact absurd h2 (by simp)
        · rw [if_neg (by omega : ¬ c.toNat < d.toNat),
            if_pos (by omega : d.toNat < c.toNat)] at h1
          exact absurd h1 (by simp)
        · rw [if_neg (by omega : ¬ c.toNat < d.toNat),
            if_pos (by omega : d.toNat < c.toNat)] at h1
          exact absurd h1 (by simp)
        · rw [if_neg (by omega : ¬ c.toNat < d.toNat),
            if_pos (by omega : d.toNat < c.toNat)] at h1
          exact absurd h1 (by simp)

theorem strLeB_total (a b : String) :
    strLeB a b = true ∨ strLeB b a = true :=
  charListLe_total a.data b.data

theorem strLeB_trans (a b c : String) (h1 : strLeB a b = true)
    (h2 : strLeB b c = true) : strLeB a c = true :=
  charListLe_trans a.data b.data c.data h1 h2

theorem charListLt_trichotomy (p : List Char) :
    ∀ q, charListLt p q = true ∨ p = q ∨ charListLt q p = true := by
  induction p with
  | nil =>
    intro q
    cases q with
    | nil => exact Or.inr (Or.inl rfl)
    | cons d ds => exact Or.inl rfl
  | cons c cs ih =>
    intro q
    cases q with
    | nil => exact Or.inr (Or.inr rfl)
    | cons d ds =>
      simp only [charListLt]
      rcases Nat.lt_trichotomy c.toNat d.toNat with h | h | h
      · left
        rw [if_pos h]
      · have hcd : c = d := Char.eq_of_val_eq (by
          have : c.val.toNat = d.val.toNat := h
          exact UInt32.eq_of_val_eq (Fin.ext this))
        have h1 : ¬ c.toNat < d.toNat := by omega
        have h2 : ¬ d.toNat < c.toNat := by omega
        rw [if_neg h1, if_neg h2, if_neg h2, if_neg h1]
        rcases ih ds with hl | he | hg
        · exact Or.inl hl
        · exact Or.inr (Or.inl (by rw [hcd, he]))
        · exact Or.inr (Or.inr hg)
      · right; right
        rw [if_pos h]

theorem charListLt_trans (p : List Char) :
    ∀ q r, charListLt p q = true → charListLt q r = true →
      charListLt p r = true := by
  induction p with
  | nil =>
    intro q r h1 h2
    cases q with
    | nil => simp [charListLt] at h1
    | cons d ds =>
      cases r with
      | nil => simp [charListLt] at h2
      | cons e es => rfl
  | cons c cs ih =>
    intro q r h1 h2
    cases q with
    | nil => simp [charListLt] at h1
    | cons d ds =>
      cases r with
      | nil => simp [charListLt] at h2
      | cons e es =>
        simp only [charListLt] at h1 h2 ⊢
        rcases Nat.lt_trichotomy c.toNat d.toNat with hcd | hcd | hcd <;>
          rcases Nat.lt_trichotomy d.toNat e.toNat with hde | hde | hde
        · rw [if_pos (by omega : c.toNat < e.toNat)]
        · rw [if_pos (by omega : c.toNat < e.toNat)]
        · rw [if_neg (by omega : ¬ d.toNat < e.toNat),
            if_pos (by omega : e.toNat < d.toNat)] at h2
          exact absurd h2 (by simp)
        · rw [if_pos (by omega : c.toNat < e.toNat)]
        · rw [if_neg (by omega : ¬ c.toNat < e.toNat),
            if_neg (by omega : ¬ e.toNat < c.toNat)]
          rw [if_neg (by omega : ¬ c.toNat < d.toNat),
            if_neg (by omega : ¬ d.toNat < c.toNat)] at h1
          rw [if_neg (by omega : ¬ d.toNat < e.toNat),
            if_neg (by omega : ¬ e.toNat < d.toNat)] at h2
          exact ih ds es h1 h2
        · rw [if_neg (by omega : ¬ d.toNat < e.toNat),
            if_pos (by omega : e.toNat < d.toNat)] at h2
          exact absurd h2 (by simp)
        · rw [if_neg (by omega : ¬ c.toNat < d.toNat),
            if_pos (by omega : d.toNat < c.toNat)] at h1
          exact absurd h1 (by simp)
        · rw [if_neg (by omega : ¬ c.toNat < d.toNat),
            if_pos (by omega : d.toNat < c.toNat)] at h1
          exact absurd h1 (by simp)
        · rw [if_neg (by omega : ¬ c.toNat < d.toNat),
            if_pos (by omega : d.toNat < c.toNat)] at h1
          exact absurd h1 (by simp)

theorem strLtB_trans (a b c : String) (h1 : strLtB a b = true)
    (h2 : strLtB b c = true) : strLtB a c = true :=
  charListLt_trans a.data b.data c.data h1 h2

theorem strLtB_trichotomy (a b : String) :
    strLtB a b = true ∨ a = b ∨ strLtB b a = true := by
  rcases charListLt_trichotomy a.data b.data with h | h | h
  · exact Or.inl h
  · refine Or.inr (Or.inl ?_)
    cases a
    cases b
    exact congrArg String.mk h
  · exact Or.inr (Or.inr h)

theorem pairLe_total (a b : String × String) :
    pairLe a b = true ∨ pairLe b a = true := by
  rcases strLtB_trichotomy a.1 b.1 with h | h | h
  · left
    simp [pairLe, h]
  · rcases strLeB_total a.2 b.2 with h2 | h2
    · left
      simp [pairLe, h, h2]
    · right
      simp [pairLe, h.symm, h2]
  · right
    simp [pairLe, h]

theorem pairLe_trans (a b c : String × String) (h1 : pairLe a b = true)
    (h2 : pairLe b c = true) : pairLe a c = true := by
  simp only [pairLe, Bool.or_eq_true, Bool.and_eq_true,
    decide_eq_true_eq] at h1 h2 ⊢
  rcases h1 with h1 | ⟨he1, hle1⟩ <;> rcases h2 with h2 | ⟨he2, hle2⟩
  · exact Or.inl (strLtB_trans _ _ _ h1 h2)
  · exact Or.inl (he2 ▸ h1)
  · exact Or.inl (by rw [he1]; exact h2)
  · exact Or.inr ⟨he1.trans he2, strLeB_trans _ _ _ hle1 hle2⟩
theorem dateLe_total (a b : SDate) : dateLe a b = true ∨ dateLe b a = true := by
  simp only [dateLe, decide_eq_true_eq]
  omega

theorem dateLe_trans (a b c : SDate) (h1 : dateLe a b = true)
    (h2 : dateLe b c = true) : dateLe a c = true := by
  simp only [dateLe, decide_eq_true_eq] at h1 h2 ⊢
  omega

/-- Counting rows: a constant-1 aggregate sums to the row count. -/
theorem sum_map_one {α : Type} (l : List α) :
    (l.map (fun _ => (1 : Nat))).sum = l.length := by
  induction l with
  | nil => rfl
  | cons x t ih =>
    simp [ih]
    omega

/-- Under the reference invariants (each association row names exactly
one existing stop and one existing line) the three-way join has exactly
one row per `StopDetails` row. -/
theorem stopJoinRows_length (db : DB)
    (href : ∀ sd ∈ db.stopDetails,
      (db.stops.filter (fun st => st.stop_id = sd.stop_id)).length = 1
      ∧ (db.lines.filter (fun ln => ln.line_id = sd.line_id)).length = 1) :
    (stopJoinRows db).length = db.stopDetails.length := by
  unfold stopJoinRows
  generalize hsds : db.stopDetails = sds at href ⊢
  clear hsds
  induction sds with
  | nil => rfl
  | cons sd t ih =>
    rw [List.flatMap_cons, List.length_append]
    rcases href sd (List.mem_cons_self sd t) with ⟨h1, h2⟩
    rcases List.length_eq_one.mp h1 with ⟨st0, hst0⟩
    rw [hst0]
    simp only [List.flatMap_cons, List.flatMap_nil, List.append_nil,
      List.length_map, List.length_cons]
    rw [h2, ih (fun x hx => href x (List.mem_cons_of_mem sd hx))]
    omega

/-- With at least 10 days, the report shows exactly 10 entries. -/
theorem shownDays_length_of_ge {α : Type} (l : List α) (h : 10 ≤ l.length) :
    (shownDays l).length = 10 := by
  unfold shownDays
  rw [List.length_append, List.length_take, List.length_drop]
  omega

/-- With at least 10 distinct days, no day is shown twice. -/
theorem shownDays_nodup {α : Type} (l : List α) (hnd : l.Nodup)
    (h : 10 ≤ l.length) : (shownDays l).Nodup := by
  have hdd : (l.drop 5).drop (l.length - 10) = l.drop (l.length - 5) := by
    rw [List.drop_drop]
    congr 1
    omega
  have hsub : (shownDays l).Sublist l := by
    have h2 : (l.take 5 ++ l.drop (l.length - 5)).Sublist
        (l.take 5 ++ l.drop 5) := by
      refine List.Sublist.append_left ?_ _
      rw [← hdd]
      exact List.drop_sublist _ _
    rw [List.take_append_drop] at h2
    exact h2
  exact List.Nodup.sublist hsub hnd

/-- With fewer than 10 days, every day still appears in the report. -/
theorem shownDays_mem_of_lt {α : Type} (l : List α) (h : l.length < 10) :
    ∀ x ∈ l, x ∈ shownDays l := by
  intro x hx
  unfold shownDays
  rw [List.mem_append]
  conv at hx => rw [← List.take_append_drop (l.length - 5) l]
  rcases List.mem_append.mp hx with hx | hx
  · left
    have htt : l.take (l.length - 5) = (l.take 5).take (l.length - 5) := by
      rw [List.take_take]
      congr 1
      omega
    rw [htt] at hx
    exact List.take_subset _ _ hx
  · exact Or.inr hx

/-- With fewer than 10 days the report prints the first `min N 5` and
the last `min N 5` days. -/
theorem shownDays_length_of_lt {α : Type} (l : List α) (h : l.length < 10) :
    (shownDays l).length = 2 * min l.length 5 := by
  unfold shownDays
  rw [List.length_append, List.length_take, List.length_drop]
  omega

/-- Occurrence counts over an append split. -/
theorem countOcc_append {α : Type} [DecidableEq α] (x : α) (a b : List α) :
    countOcc x (a ++ b) = countOcc x a + countOcc x b := by
  unfold countOcc
  rw [List.filter_append, List.length_append]

/-- In a duplicate-free list every element occurs at most once. -/
theorem countOcc_le_one {α : Type} [DecidableEq α] (x : α) (l : List α)
    (hnd : l.Nodup) : countOcc x l ≤ 1 := by
  induction l with
  | nil => exact Nat.zero_le 1
  | cons y t ih =>
    rcases List.nodup_cons.mp hnd with ⟨hy, ht⟩
    unfold countOcc at ih ⊢
    by_cases hxy : y = x
    · simp only [List.filter_cons, hxy, decide_eq_true_eq, if_pos rfl]
      have hzero : (t.filter (fun z => z = x)).length = 0 := by
        rw [List.length_eq_zero]
        rw [List.filter_eq_nil_iff]
        intro z hz
        simp only [decide_eq_true_eq]
        intro hzx
        exact hy (by rw [← hxy] at hzx; rw [← hzx]; exact hz)
      simp [hzero]
    · have : (decide (y = x)) = false := by simpa using hxy
      simp only [List.filter_cons, this, if_false]
      exact ih ht

/-- No day is ever shown more than twice. -/
theorem shownDays_count_le {α : Type} [DecidableEq α] (l : List α)
    (hnd : l.Nodup) (x : α) : countOcc x (shownDays l) ≤ 2 := by
  unfold shownDays
  rw [countOcc_append]
  have h1 : (l.take 5).Nodup :=
    List.Nodup.sublist (List.take_sublist _ _) hnd
  have h2 : (l.drop (l.length - 5)).Nodup :=
    List.Nodup.sublist (List.drop_sublist _ _) hnd
  have c1 := countOcc_le_one x _ h1
  have c2 := countOcc_le_one x _ h2
  omega

/-- A daily series has pairwise-distinct entries (one per date). -/
theorem dailySeries_nodup (db : DB) (sid : Int) (year : String) :
    (dailySeries db sid year).Nodup := by
  unfold dailySeries
  exact nodup_sortBy _ _ (groupSums_nodup _ _ _)

/-- A daily series is ordered by date ascending. -/
theorem dailySeries_sorted (db : DB) (sid : Int) (year : String) :
    (dailySeries db sid year).Pairwise (fun a b => dateLe a.1 b.1 = true) := by
  unfold dailySeries
  exact pairwise_sortBy (fun (a b : SDate × Nat) => dateLe a.1 b.1)
    (fun a b => dateLe_total a.1 b.1)
    (fun a b c h1 h2 => dateLe_trans a.1 b.1 c.1 h1 h2) _

/-! ## Claim analyses -/

/-- C3: per-station day-type percentages must skip the percentage
computation when the station total is zero and report only the zero
total.  The code has no such guard: on a station whose only ridership
record has 0 riders the loop evaluates `count / total_ridership` with a
zero total, raising an uncaught ZeroDivisionError (`crash`), instead of
reporting the zero total. -/
theorem C3_zero_total_division_crash :
    ridership_percentages exZeroDB "Foster" = RPResult.crash
    ∧ (∃ r ∈ exZeroDB.ridership,
        r.station_id = 1 ∧ r.type_of_day = "W" ∧ r.num_riders = 0) := by
  exact ⟨by decide, by decide⟩

/-- C4: the x-values of the comparison plot are computed from the dates
of station 1 only, and the series of station 2 is plotted against those
same x-values: with station 1 having data on Jan 1 only and station 2
on Jan 2 only, the value 7 of station 2 is drawn at day 1 although its
own date is day 2; and whenever the two series have different lengths
the plot call raises (modelled as `Option.none`).  The claim that each
y-value is paired with the day-of-year of its own date is the intended
behaviour; the code is a slip. -/
theorem C4_plot_pairs_station1_days :
    plotSeries [(⟨2020, 1, 1⟩, 5)] [(⟨2020, 1, 2⟩, 7)]
        = some ([(1, 5)], [(1, 7)])
    ∧ ([((⟨2020, 1, 2⟩ : SDate), (7 : Nat))].map
        (fun r => (dayOfYear r.1, r.2))) = [(2, 7)]
    ∧ plotSeries [(⟨2020, 1, 1⟩, 5), (⟨2020, 1, 2⟩, 6)] [(⟨2020, 1, 3⟩, 7)]
        = Option.none := by
  exact ⟨by decide, by decide, by decide⟩

/-- C5 counterexample: for a station with 7 days of data (fewer than
10), the claim says all 7 days are shown exactly once; but the report
`data[0:5] + data[-5:]` shows the day 2021-01-03 twice. -/
theorem C5_counterexample :
    (dailySeries exDays7DB 1 "2021").length = 7
    ∧ countOcc ((⟨2021, 1, 3⟩ : SDate), (3 : Nat))
        (shownDays (dailySeries exDays7DB 1 "2021")) = 2 := by
  exact ⟨by decide, by decide⟩

/-- C5 amended: the daily series is date-sorted and duplicate-free; for
N ≥ 10 days the report shows exactly the 5 earliest and the 5 latest
days, 10 entries, none twice; for N < 10 it shows the first `min N 5`
and the last `min N 5` days, so every day appears at least once, with
`2·min N 5` printed entries, and no day appears more than twice (days
in the overlap of the two slices do appear twice). -/
theorem C5_daily_truncation (db : DB) (sid : Int) (year : String) :
    (dailySeries db sid year).Pairwise (fun a b => dateLe a.1 b.1 = true)
    ∧ (dailySeries db sid year).Nodup
    ∧ (10 ≤ (dailySeries db sid year).length →
        shownDays (dailySeries db sid year)
            = (dailySeries db sid year).take 5
              ++ (dailySeries db sid year).drop
                  ((dailySeries db sid year).length - 5)
        ∧ (shownDays (dailySeries db sid year)).length = 10
        ∧ (shownDays (dailySeries db sid year)).Nodup)
    ∧ ((dailySeries db sid year).length < 10 →
        (∀ x ∈ dailySeries db sid year, x ∈ shownDays (dailySeries db sid year))
        ∧ (shownDays (dailySeries db sid year)).length
            = 2 * min (dailySeries db sid year).length 5
        ∧ ∀ x, countOcc x (shownDays (dailySeries db sid year)) ≤ 2) := by
  refine ⟨dailySeries_sorted db sid year, dailySeries_nodup db sid year,
    ?_, ?_⟩
  · intro h
    exact ⟨rfl, shownDays_length_of_ge _ h,
      shownDays_nodup _ (dailySeries_nodup db sid year) h⟩
  · intro h
    exact ⟨shownDays_mem_of_lt _ h, shownDays_length_of_lt _ h,
      shownDays_count_le _ (dailySeries_nodup db sid year)⟩

/-- C5 witness: a station with 12 days of data shows exactly 10 report
entries with no duplicates. -/
theorem C5_witness :
    (shownDays (dailySeries exDays12DB 1 "2021")).length = 10
    ∧ (shownDays (dailySeries exDays12DB 1 "2021")).Nodup := by
  have h := (C5_daily_truncation exDays12DB 1 "2021").2.2.1 (by decide)
  exact ⟨h.2.1, h.2.2⟩

/-- C7: for every in-range latitude and longitude (with `c` standing
for the cosine of the latitude in radians), the range-filter bounds of
the geospatial search are exactly those the spec describes: latitude
half-width exactly 1/69 degrees with no extra padding, longitude
half-width exactly 1/(c × 69.17) degrees, longitude bounds widened by
±0.0001, all four bounds rounded to 3 decimal places; and every
reported row carries the stored coordinates of some stop, not rounded
ones. -/
theorem C7_mile_box_refinement (db : DB) (c lat lon : ℚ)
    (h1 : 40 ≤ lat ∧ lat ≤ 43) (h2 : -88 ≤ lon ∧ lon ≤ -87) :
    mileBox c lat lon = specMileBox c lat lon
    ∧ ∀ r ∈ mileQueryRows db (mileBox c lat lon),
        ∃ st ∈ db.stops, r.2.1 = st.latitude ∧ r.2.2 = st.longitude := by
  constructor
  · have e1 : ∀ x : ℚ, x - 0.000 = x := by
      intro x
      norm_num
    have e2 : ∀ x : ℚ, x + 0.000 = x := by
      intro x
      norm_num
    simp only [mileBox, specMileBox, e1, e2]
  · intro r hr
    simp only [mileQueryRows] at hr
    rw [mem_dedupFirst] at hr
    rcases List.mem_flatMap.mp hr with ⟨st, hst, hrin⟩
    by_cases hcond : (mileBox c lat lon).lat_lower ≤ st.latitude
        ∧ st.latitude ≤ (mileBox c lat lon).lat_upper
        ∧ (mileBox c lat lon).lon_left ≤ st.longitude
        ∧ st.longitude ≤ (mileBox c lat lon).lon_right
    · rw [if_pos hcond] at hrin
      rcases List.mem_map.mp hrin with ⟨s2, hs2, heq⟩
      exact ⟨st, hst, by rw [← heq], by rw [← heq]⟩
    · rw [if_neg hcond] at hrin
      cases hrin

/-- C7 witness: the refinement instantiated at latitude 41.85,
longitude -87.65 and cosine value 3/4. -/
theorem C7_witness :
    mileBox (3 / 4) 41.85 (-87.65) = specMileBox (3 / 4) 41.85 (-87.65) :=
  (C7_mile_box_refinement exInvDB (3 / 4) 41.85 (-87.65)
    (by norm_num) (by norm_num)).1

/-- C1 counterexample: a dataset satisfying the data-model invariants
(unique identifiers, every association row referencing an existing stop
and line, every stop belonging to an existing station) in which one
stop is served by two lines.  The per-(color,direction) stop counts of
the distribution sum to 2, but the total stop count of the system is 1,
refuting the claim that the two are always equal. -/
theorem C1_counterexample :
    (∀ sd ∈ exInvDB.stopDetails,
      (exInvDB.stops.filter (fun st => st.stop_id = sd.stop_id)).length = 1
      ∧ (exInvDB.lines.filter (fun ln => ln.line_id = sd.line_id)).length = 1)
    ∧ (∀ st ∈ exInvDB.stops,
      (exInvDB.stations.filter
        (fun s => s.station_id = st.station_id)).length = 1)
    ∧ ((stops_for_each_color_by_direction exInvDB).map
        DistRow.num_stops).sum = 2
    ∧ exInvDB.stops.length = 1 := by
  exact ⟨by decide, by decide, by decide, by decide⟩

/-- C1 amended: under the reference invariants the per-(color,direction)
stop counts of the distribution sum to the number of stop-line
association rows (`StopDetails`), which exceeds the total stop count
whenever a stop serves more than one line; each reported percentage is
the pair count divided by the system-wide total stop count, exactly as
the claim states. -/
theorem C1_distribution_totals (db : DB)
    (href : ∀ sd ∈ db.stopDetails,
      (db.stops.filter (fun st => st.stop_id = sd.stop_id)).length = 1
      ∧ (db.lines.filter (fun ln => ln.line_id = sd.line_id)).length = 1) :
    ((stops_for_each_color_by_direction db).map DistRow.num_stops).sum
        = db.stopDetails.length
    ∧ ∀ e ∈ stops_for_each_color_by_direction db,
        e.pct = (e.num_stops : ℚ) / (db.stops.length : ℚ) * 100 := by
  constructor
  · simp only [stops_for_each_color_by_direction]
    rw [List.map_map]
    have hcomp : (DistRow.num_stops ∘ fun g : (String × String) × Nat =>
        DistRow.mk g.1.1 g.1.2 g.2
          ((g.2 : ℚ) / (db.stops.length : ℚ) * 100)) = Prod.snd := rfl
    rw [hcomp, sum_map_sortBy, groupSums_total, sum_map_one]
    exact stopJoinRows_length db href
  · intro e he
    simp only [stops_for_each_color_by_direction, List.mem_map] at he
    rcases he with ⟨g, hg, rfl⟩
    rfl

/-- C1 witness: the amended sum identity evaluated on the two-line
dataset. -/
theorem C1_witness :
    ((stops_for_each_color_by_direction exInvDB).map
      DistRow.num_stops).sum = exInvDB.stopDetails.length :=
  (C1_distribution_totals exInvDB (by decide)).1

/-- C6 counterexample: two stations with equal weekday totals, where
the station with the alphabetically larger name ("Zeta", station id 1)
is emitted before "Alpha" (station id 2): `ORDER BY Total_Riders DESC`
carries no name tie-break, refuting the claim that the alphabetically
smaller name comes first on ties. -/
theorem C6_counterexample :
    (total_weekday_ridership exTieDB).map
        (fun l => l.map WeekdayRow.station_name) = some ["Zeta", "Alpha"]
    ∧ (total_weekday_ridership exTieDB).map
        (fun l => l.map WeekdayRow.total) = some [10, 10]
    ∧ strLtB "Alpha" "Zeta" = true := by
  exact ⟨by decide, by decide, by decide⟩

/-- C6 amended: the weekday ranking emits every station having weekday
ridership, ordered by descending weekday total — with ties left in the
station-id group order rather than broken by name — and each percentage
is the station total divided by the grand total of all emitted weekday
totals. -/
theorem C6_weekday_ranking (db : DB) (out : List WeekdayRow)
    (hout : total_weekday_ridership db = some out) :
    out.Pairwise (fun a b => b.total ≤ a.total)
    ∧ (∀ e ∈ out, e.pct
        = (e.total : ℚ) / (((out.map WeekdayRow.total).sum : Nat) : ℚ) * 100)
    ∧ ∀ st ∈ db.stations,
        (∃ r ∈ db.ridership,
          r.type_of_day = "W" ∧ r.station_id = st.station_id) →
        st.station_name ∈ out.map WeekdayRow.station_name := by
  have hkeymem : ∀ st ∈ db.stations,
      (∃ r ∈ db.ridership,
        r.type_of_day = "W" ∧ r.station_id = st.station_id) →
      ∃ g, g ∈ sortBy (fun a b => decide (b.2 ≤ a.2))
          (sortBy (fun a b => decide (a.1.1 ≤ b.1.1))
            (groupSums Prod.fst Prod.snd
              (db.ridership.flatMap (fun r =>
                if r.type_of_day = "W" then
                  (db.stations.filter
                    (fun st2 => st2.station_id = r.station_id)).map
                    (fun st2 => ((st2.station_id, st2.station_name),
                      r.num_riders))
                else []))))
        ∧ g.1 = (st.station_id, st.station_name) := by
    intro st hst hr
    rcases hr with ⟨r, hrmem, hW, hid⟩
    have hrow : ((st.station_id, st.station_name), r.num_riders)
        ∈ db.ridership.flatMap (fun r2 =>
          if r2.type_of_day = "W" then
            (db.stations.filter
              (fun st2 => st2.station_id = r2.station_id)).map
              (fun st2 => ((st2.station_id, st2.station_name), r2.num_riders))
          else []) := by
      refine List.mem_flatMap.mpr ⟨r, hrmem, ?_⟩
      rw [if_pos hW]
      refine List.mem_map.mpr ⟨st, ?_, rfl⟩
      exact List.mem_filter.mpr ⟨hst, by simp [hid]⟩
    have hkey := groupSums_mem_keys Prod.fst Prod.snd _ _ hrow
    rcases List.mem_map.mp hkey with ⟨g, hg, hgk⟩
    refine ⟨g, ?_, hgk⟩
    rw [mem_sortBy, mem_sortBy]
    exact hg
  simp only [total_weekday_ridership] at hout
  by_cases hemp : (sortBy (fun a b => decide (b.2 ≤ a.2))
      (sortBy (fun a b => decide (a.1.1 ≤ b.1.1))
        (groupSums Prod.fst Prod.snd
          (db.ridership.flatMap (fun r =>
            if r.type_of_day = "W" then
              (db.stations.filter
                (fun st => st.station_id = r.station_id)).map
                (fun st => ((st.station_id, st.station_name),
                  r.num_riders))
            else []))))).isEmpty = true
  · rw [if_pos hemp] at hout
    have hout2 : out = [] := by
      cases hout
      rfl
    subst hout2
    refine ⟨List.Pairwise.nil, ?_, ?_⟩
    · intro e he
      cases he
    · intro st hst hr
      rcases hkeymem st hst hr with ⟨g, hg, hgk⟩
      rw [List.isEmpty_iff] at hemp
      rw [hemp] at hg
      cases hg
  · rw [if_neg (by simpa using hemp)] at hout
    by_cases hzero : ((sortBy (fun a b => decide (b.2 ≤ a.2))
        (sortBy (fun a b => decide (a.1.1 ≤ b.1.1))
          (groupSums Prod.fst Prod.snd
            (db.ridership.flatMap (fun r =>
              if r.type_of_day = "W" then
                (db.stations.filter
                  (fun st => st.station_id = r.station_id)).map
                  (fun st => ((st.station_id, st.station_name),
                    r.num_riders))
              else []))))).map Prod.snd).sum = 0
    · rw [if_pos hzero] at hout
      cases hout
    · rw [if_neg hzero] at hout
      have hout2 := (Option.some.injEq _ _).mp hout
      subst hout2
      refine ⟨?_, ?_, ?_⟩
      · have hp := pairwise_sortBy
          (fun (a b : (Int × String) × Nat) => decide (b.2 ≤ a.2))
          (fun a b => by
            rcases Nat.le_total b.2 a.2 with h | h
            · exact Or.inl (by simpa using h)
            · exact Or.inr (by simpa using h))
          (fun a b c h1 h2 => by
            simp only [decide_eq_true_eq] at h1 h2 ⊢
            omega)
          (sortBy (fun a b => decide (a.1.1 ≤ b.1.1))
            (groupSums Prod.fst Prod.snd
              (db.ridership.flatMap (fun r =>
                if r.type_of_day = "W" then
                  (db.stations.filter
                    (fun st => st.station_id = r.station_id)).map
                    (fun st => ((st.station_id, st.station_name),
                      r.num_riders))
                else []))))
        refine List.Pairwise.map _ ?_ hp
        intro a b h
        simpa using h
      · intro e he
        rcases List.mem_map.mp he with ⟨g, hg, rfl⟩
        rw [List.map_map]
        rfl
      · intro st hst hr
        rcases hkeymem st hst hr with ⟨g, hg, hgk⟩
        refine List.mem_map.mpr ⟨_, List.mem_map_of_mem _ hg, ?_⟩
        show g.1.2 = st.station_name
        rw [hgk]

/-- C6 witness: the amended descending-order property holds on the
tied dataset. -/
theorem C6_witness :
    ((total_weekday_ridership exTieDB).getD []).Pairwise
      (fun a b => b.total ≤ a.total) := by
  cases hout : total_weekday_ridership exTieDB with
  | none =>
    have hsome : (total_weekday_ridership exTieDB).isSome = true := by decide
    rw [hout] at hsome
    cases hsome
  | some out =>
    simpa using (C6_weekday_ranking exTieDB out hout).1

/-- A match list with at least two entries resolves to `many`. -/
theorem resolveOne_many {α : Type} (l : List α) (h : 2 ≤ l.length) :
    resolveOne l = Resolution.many := by
  cases l with
  | nil => cases h
  | cons a t =>
    cases t with
    | nil =>
      simp only [List.length_cons, List.length_nil] at h
      omega
    | cons b t2 => rfl

/-- When the first pattern matches nothing the comparison reports the
no-station failure, whatever the remaining inputs are. -/
theorem comparison_failure1_zero (db : DB) (year p1 p2 : String) (pr : Bool)
    (h : comparisonMatches db p1 = []) :
    daily_ridership_comparison db year p1 p2 pr
      = CompResult.failure1 msgNoStation := by
  simp only [daily_ridership_comparison, h, resolveOne]

/-- When the first pattern matches two or more stations the comparison
reports the multiple-stations failure, whatever the remaining inputs
are. -/
theorem comparison_failure1_many (db : DB) (year p1 p2 : String) (pr : Bool)
    (h : 2 ≤ (comparisonMatches db p1).length) :
    daily_ridership_comparison db year p1 p2 pr
      = CompResult.failure1 msgMultiple := by
  simp only [daily_ridership_comparison, resolveOne_many _ h]

/-- C8: commands 6, 7 and 8 all resolve their station pattern with the
same two-branch rule: an empty match list aborts with the no-station
message, two or more matches abort with the distinct multiple-stations
message (both before any aggregation, and for the comparison before the
second pattern or the plot answer is even consulted), and exactly one
match proceeds with that station; no silent pick occurs. -/
theorem C8_single_match_resolution (db : DB) (pat year p1 p2 : String) :
    msgNoStation ≠ msgMultiple
    ∧ (distinctNameMatches db pat = [] →
        yearly_ridership db pat = SeriesResult.noStation
        ∧ monthly_ridership db pat year = SeriesResult.noStation)
    ∧ (2 ≤ (distinctNameMatches db pat).length →
        yearly_ridership db pat = SeriesResult.multiple
        ∧ monthly_ridership db pat year = SeriesResult.multiple)
    ∧ (∀ name, distinctNameMatches db pat = [name] →
        (∃ ser, yearly_ridership db pat = SeriesResult.report name ser)
        ∧ ∃ ser, monthly_ridership db pat year = SeriesResult.report name ser)
    ∧ ∀ pr : Bool,
        (comparisonMatches db p1 = [] →
          daily_ridership_comparison db year p1 p2 pr
            = CompResult.failure1 msgNoStation)
        ∧ (2 ≤ (comparisonMatches db p1).length →
          daily_ridership_comparison db year p1 p2 pr
            = CompResult.failure1 msgMultiple)
        ∧ ∀ s1, comparisonMatches db p1 = [s1] →
            (comparisonMatches db p2 = [] →
              daily_ridership_comparison db year p1 p2 pr
                = CompResult.failure2 msgNoStation)
            ∧ (2 ≤ (comparisonMatches db p2).length →
              daily_ridership_comparison db year p1 p2 pr
                = CompResult.failure2 msgMultiple)
            ∧ ∀ s2, comparisonMatches db p2 = [s2] →
              daily_ridership_comparison db year p1 p2 false
                = CompResult.report s1.1 s1.2
                    (shownDays (dailySeries db s1.1 year))
                    s2.1 s2.2 (shownDays (dailySeries db s2.1 year))
                    Option.none := by
  refine ⟨by decide, ?_, ?_, ?_, ?_⟩
  · intro h
    constructor
    · simp only [yearly_ridership, h, resolveOne]
    · simp only [monthly_ridership, h, resolveOne]
  · intro h
    constructor
    · simp only [yearly_ridership, resolveOne_many _ h]
    · simp only [monthly_ridership, resolveOne_many _ h]
  · intro name h
    constructor
    · simp only [yearly_ridership, h, resolveOne]
      exact ⟨_, rfl⟩
    · simp only [monthly_ridership, h, resolveOne]
      exact ⟨_, rfl⟩
  · intro pr
    refine ⟨?_, ?_, ?_⟩
    · intro h
      exact comparison_failure1_zero db year p1 p2 pr h
    · intro h
      exact comparison_failure1_many db year p1 p2 pr h
    · intro s1 h1
      refine ⟨?_, ?_, ?_⟩
      · intro h2
        simp only [daily_ridership_comparison, h1, h2, resolveOne]
      · intro h2
        have hm := resolveOne_many _ h2
        unfold daily_ridership_comparison
        rw [h1, hm]
        rfl
      · intro s2 h2
        simp only [daily_ridership_comparison, h1, h2, resolveOne,
          Bool.false_eq_true, if_false]

/-- C8 witness: the three outcomes exercised on the two-station
dataset: an unmatched pattern reports no station, and a pattern that
the widened comparison matcher sends to both stations reports multiple
stations. -/
theorem C8_witness :
    yearly_ridership exNamesDB "zzz" = SeriesResult.noStation
    ∧ daily_ridership_comparison exNamesDB "2021" "Austin" "q" true
        = CompResult.failure1 msgMultiple := by
  constructor
  · exact ((C8_single_match_resolution exNamesDB "zzz" "2021" "q" "q").2.1
      (by decide)).1
  · exact (((C8_single_match_resolution exNamesDB "x" "2021" "Austin"
      "q").2.2.2.2 true).2.1 (by decide))

/-- C9: the stop listing validates the title-cased color first — when
no line has that color the outcome is the no-such-line report whatever
direction would have been typed next; only then is the upper-cased
direction checked against the distinct directions served by the line,
with its own report; and when both validations pass the listed rows are
ordered by stop name ascending and carry one of the two accessibility
labels. -/
theorem C9_stop_listing_validation (db : DB) (colorInput direction : String) :
    ((db.lines.filter (fun ln => ln.color = pyTitle colorInput)).isEmpty
        = true →
      ∀ d2, list_stops_by_line_and_direction db colorInput d2
        = StopsResult.noSuchLine)
    ∧ ((db.lines.filter (fun ln => ln.color = pyTitle colorInput)).isEmpty
        = false →
      strUpper direction ∉ lineDirections db (pyTitle colorInput) →
      list_stops_by_line_and_direction db colorInput direction
        = StopsResult.wrongDirection)
    ∧ ((db.lines.filter (fun ln => ln.color = pyTitle colorInput)).isEmpty
        = false →
      strUpper direction ∈ lineDirections db (pyTitle colorInput) →
      ∀ rows, list_stops_by_line_and_direction db colorInput direction
          = StopsResult.stops rows →
        rows.Pairwise (fun a b => strLeB a.1 b.1 = true)
        ∧ ∀ e ∈ rows, e.2 = "(handicap accessible)"
            ∨ e.2 = "(not handicap accessible)") := by
  refine ⟨?_, ?_, ?_⟩
  · intro h d2
    simp only [list_stops_by_line_and_direction, h, if_true]
  · intro h hdir
    simp only [list_stops_by_line_and_direction, h, Bool.false_eq_true,
      if_false, hdir, not_false_eq_true, if_true]
  · intro h hdir rows hrows
    simp only [list_stops_by_line_and_direction, h, Bool.false_eq_true,
      if_false, hdir, not_true_eq_false, if_false] at hrows
    by_cases hemp : (sortBy
        (fun a b => strLeB a.1.stop_name b.1.stop_name)
        ((stopJoinRows db).filter
          (fun r => r.2.color = pyTitle colorInput
            ∧ r.1.direction = strUpper direction))).isEmpty = true
    · rw [if_pos hemp] at hrows
      cases hrows
    · rw [if_neg (by simpa using hemp)] at hrows
      have hrows2 := (StopsResult.stops.injEq _ _).mp hrows.symm
      subst hrows2
      constructor
      · have hp := pairwise_sortBy
          (fun (a b : StopRec × LineRec) => strLeB a.1.stop_name b.1.stop_name)
          (fun a b => strLeB_total a.1.stop_name b.1.stop_name)
          (fun a b c h1 h2 =>
            strLeB_trans a.1.stop_name b.1.stop_name c.1.stop_name h1 h2)
          ((stopJoinRows db).filter
            (fun r => r.2.color = pyTitle colorInput
              ∧ r.1.direction = strUpper direction))
        refine List.Pairwise.map _ ?_ hp
        intro a b hab
        exact hab
      · intro e he
        rcases List.mem_map.mp he with ⟨r, hrm, rfl⟩
        by_cases hada : r.1.ada
        · left
          simp [adaLabel, hada]
        · right
          simp [adaLabel, hada]

/-- C9 witness: both validation failures exercised on a small line. -/
theorem C9_witness :
    list_stops_by_line_and_direction exStopsDB "green" "n"
        = StopsResult.noSuchLine
    ∧ list_stops_by_line_and_direction exStopsDB "RED" "s"
        = StopsResult.wrongDirection := by
  constructor
  · exact (C9_stop_listing_validation exStopsDB "green" "n").1 (by decide) "n"
  · exact (C9_stop_listing_validation exStopsDB "RED" "s").2.1
      (by decide) (by decide)

/-- C10: command 8 widens the typed pattern to `%pattern%` (keeping any
wildcards inside the pattern active) before matching station names,
while commands 6 and 7 match the pattern exactly as typed; on a dataset
with stations "Austin" and "Austin-Forest Park" the pattern "Austin"
therefore resolves to exactly one station for the yearly series but is
rejected as matching multiple stations by the comparison. -/
theorem C10_comparison_pattern_widened (db : DB) (p : String) :
    (∀ x, x ∈ comparisonMatches db p ↔
      ∃ st, st ∈ db.stations
        ∧ sqlLike ("%" ++ p ++ "%") st.station_name = true
        ∧ x = (st.station_id, st.station_name))
    ∧ (∀ nm, nm ∈ distinctNameMatches db p ↔
      ∃ st, st ∈ db.stations ∧ sqlLike p st.station_name = true
        ∧ nm = st.station_name)
    ∧ (∃ ser, yearly_ridership exNamesDB "Austin"
        = SeriesResult.report "Austin" ser)
    ∧ daily_ridership_comparison exNamesDB "2021" "Austin" "Austin" false
        = CompResult.failure1 msgMultiple := by
  refine ⟨?_, ?_, ?_, ?_⟩
  · intro x
    simp only [comparisonMatches, List.mem_map, List.mem_filter]
    constructor
    · rintro ⟨st, ⟨hst, hlike⟩, rfl⟩
      exact ⟨st, hst, by simpa using hlike, rfl⟩
    · rintro ⟨st, hst, hlike, rfl⟩
      exact ⟨st, ⟨hst, by simpa using hlike⟩, rfl⟩
  · intro nm
    simp only [distinctNameMatches]
    rw [mem_dedupFirst]
    simp only [List.mem_map, List.mem_filter]
    constructor
    · rintro ⟨st, ⟨hst, hlike⟩, rfl⟩
      exact ⟨st, hst, by simpa using hlike, rfl⟩
    · rintro ⟨st, hst, hlike, rfl⟩
      exact ⟨st, ⟨hst, by simpa using hlike⟩, rfl⟩
  · exact ⟨[(2021, 7)], by decide⟩
  · decide

/-- C2 counterexample: at command 9 a latitude answer that is not a
numeric literal makes `float(input(...))` raise an uncaught ValueError,
terminating the whole process — contradicting the claim that a
malformed latitude or longitude input never terminates the process. -/
theorem C2_counterexample :
    runCommand exNamesDB 1 "9" (fun _ => "abc") = StepResult.crash := by
  decide

/-- C2 amended: NotFound, Ambiguous, OutOfRange and InvalidSelector
outcomes all return control to the top-level command loop without
terminating the process (commands 1, 4, 5, 6 and 7 always return;
command 2 returns on its no-data outcome; command 8 returns when either
station pattern fails to resolve; command 9 returns on out-of-range
latitude or longitude) — but a latitude or longitude answer that does
not parse as a number raises an uncaught exception and terminates the
process. -/
theorem C2_error_outcomes (db : DB) (c : ℚ) (inp : Nat → String) :
    runCommand db c "1" inp = StepResult.cont
    ∧ runCommand db c "4" inp = StepResult.cont
    ∧ runCommand db c "5" inp = StepResult.cont
    ∧ runCommand db c "6" inp = StepResult.cont
    ∧ runCommand db c "7" inp = StepResult.cont
    ∧ (ridership_percentages db (inp 0) = RPResult.noData →
        runCommand db c "2" inp = StepResult.cont)
    ∧ (comparisonMatches db (inp 1) = [] ∨
        2 ≤ (comparisonMatches db (inp 1)).length →
        runCommand db c "8" inp = StepResult.cont)
    ∧ (parseFloatQ (inp 0) = Option.none →
        runCommand db c "9" inp = StepResult.crash)
    ∧ (∀ lat, parseFloatQ (inp 0) = some lat → ¬ (40 ≤ lat ∧ lat ≤ 43) →
        runCommand db c "9" inp = StepResult.cont)
    ∧ (∀ lat, parseFloatQ (inp 0) = some lat → 40 ≤ lat ∧ lat ≤ 43 →
        parseFloatQ (inp 1) = Option.none →
        runCommand db c "9" inp = StepResult.crash)
    ∧ (∀ lat lon, parseFloatQ (inp 0) = some lat → 40 ≤ lat ∧ lat ≤ 43 →
        parseFloatQ (inp 1) = some lon → ¬ (-88 ≤ lon ∧ lon ≤ -87) →
        runCommand db c "9" inp = StepResult.cont) := by
  refine ⟨rfl, rfl, rfl, rfl, rfl, ?_, ?_, ?_, ?_, ?_, ?_⟩
  · intro h
    show (match ridership_percentages db (inp 0) with
      | RPResult.crash => StepResult.crash
      | _ => StepResult.cont) = StepResult.cont
    rw [h]
  · intro h
    show (match daily_ridership_comparison db (inp 0) (inp 1) (inp 2)
        (decide (strLower (inp 3) = "y")) with
      | CompResult.crashed => StepResult.crash
      | _ => StepResult.cont) = StepResult.cont
    rcases h with h | h
    · rw [comparison_failure1_zero db (inp 0) (inp 1) (inp 2)
        (decide (strLower (inp 3) = "y")) h]
    · rw [comparison_failure1_many db (inp 0) (inp 1) (inp 2)
        (decide (strLower (inp 3) = "y")) h]
  · intro h
    show (match parseFloatQ (inp 0) with
      | Option.none => StepResult.crash
      | some lat =>
        match stations_within_mile db c lat (inp 1) with
        | MileResult.lonParseCrash => StepResult.crash
        | _ => StepResult.cont) = StepResult.crash
    rw [h]
  · intro lat hp hrange
    show (match parseFloatQ (inp 0) with
      | Option.none => StepResult.crash
      | some lat =>
        match stations_within_mile db c lat (inp 1) with
        | MileResult.lonParseCrash => StepResult.crash
        | _ => StepResult.cont) = StepResult.cont
    rw [hp]
    show (match stations_within_mile db c lat (inp 1) with
      | MileResult.lonParseCrash => StepResult.crash
      | _ => StepResult.cont) = StepResult.cont
    unfold stations_within_mile
    rw [if_pos hrange]
  · intro lat hp hrange hlon
    show (match parseFloatQ (inp 0) with
      | Option.none => StepResult.crash
      | some lat =>
        match stations_within_mile db c lat (inp 1) with
        | MileResult.lonParseCrash => StepResult.crash
        | _ => StepResult.cont) = StepResult.crash
    rw [hp]
    show (match stations_within_mile db c lat (inp 1) with
      | MileResult.lonParseCrash => StepResult.crash
      | _ => StepResult.cont) = StepResult.crash
    unfold stations_within_mile
    rw [if_neg (by simpa using hrange), hlon]
  · intro lat lon hp hrange hq hlon
    show (match parseFloatQ (inp 0) with
      | Option.none => StepResult.crash
      | some lat =>
        match stations_within_mile db c lat (inp 1) with
        | MileResult.lonParseCrash => StepResult.crash
        | _ => StepResult.cont) = StepResult.cont
    rw [hp]
    show (match stations_within_mile db c lat (inp 1) with
      | MileResult.lonParseCrash => StepResult.crash
      | _ => StepResult.cont) = StepResult.cont
    unfold stations_within_mile
    rw [if_neg (by simpa using hrange), hq]
    show (match (if ¬ (-88 ≤ lon ∧ lon ≤ -87) then MileResult.lonOutOfRange
        else
          let rows := sortBy (fun a b => strLeB a.1 b.1)
            (mileQueryRows db (mileBox c lat lon))
          if rows.isEmpty = true then MileResult.noStations
          else MileResult.results rows) with
      | MileResult.lonParseCrash => StepResult.crash
      | _ => StepResult.cont) = StepResult.cont
    rw [if_pos hlon]

/-- C2 witness: a no-data station name at command 2 returns to the
loop, and an out-of-range latitude at command 9 returns to the loop. -/
theorem C2_witness :
    runCommand exNamesDB 1 "2" (fun _ => "zzz") = StepResult.cont
    ∧ runCommand exNamesDB 1 "9" (fun _ => "50") = StepResult.cont := by
  constructor
  · exact (C2_error_outcomes exNamesDB 1
      (fun _ => "zzz")).2.2.2.2.2.1 (by decide)
  · have hp : parseFloatQ "50"
        = some ((1 : ℚ) * ((natOfDigits ['5', '0'] : Nat) : ℚ)) := rfl
    have hd : (natOfDigits ['5', '0'] : Nat) = 50 := by decide
    refine (C2_error_outcomes exNamesDB 1
      (fun _ => "50")).2.2.2.2.2.2.2.2.1
      ((1 : ℚ) * ((natOfDigits ['5', '0'] : Nat) : ℚ)) hp ?_
    rw [hd]
    norm_num
